import Mathlib

/-!
Verification development for the DreamBox Blender exporter
(scripts/Blender/dbmesh_export/dbexport.py).

The exporter is shallowly embedded over exact rationals: every float value
computed by the Python code is represented by a rational number, and the byte
stream produced by the struct.pack calls is represented by a list of typed
packed fields tagged with their on-disk byte widths.  Python int() (truncation
toward zero) is modelled by pyint; struct.pack field widths follow calcsize
for the exact format strings appearing in the source.
-/

/-- Python int() applied to a float: truncation toward zero. -/
def pyint (q : ℚ) : ℤ := if 0 ≤ q then ⌊q⌋ else ⌈q⌉

/-- mathutils.Vector with three components (exact-rational model). -/
structure Vec3 where
  x : ℚ
  y : ℚ
  z : ℚ
deriving DecidableEq

/-- mathutils.Vector with four components (colors, quaternion storage). -/
structure Vec4 where
  x : ℚ
  y : ℚ
  z : ℚ
  w : ℚ
deriving DecidableEq

/-- mathutils.Quaternion (x, y, z, w components; exact-rational model). -/
structure Quat where
  x : ℚ
  y : ℚ
  z : ℚ
  w : ℚ
deriving DecidableEq

/-- Squared Euclidean distance between two vectors.  The source compares
(a - b).length > err; for the embedding we use the exactly equivalent
rational test err < 0 or err^2 < distSq a b (see far_vec3). -/
def distSq (a b : Vec3) : ℚ :=
  (a.x - b.x) * (a.x - b.x) + (a.y - b.y) * (a.y - b.y) + (a.z - b.z) * (a.z - b.z)

/-- One field written by a struct.pack call, tagged with its format width:
f32 is format f (4 bytes), f16 is format e (2 bytes), u8 is format B (1 byte),
u16 is format H (2 bytes), raw n is an n-byte fixed-width string/pad field
such as 32s or 32x. -/
inductive Packed where
  | f32 (v : ℚ)
  | f16 (v : ℚ)
  | u8 (v : ℤ)
  | u16 (v : ℕ)
  | raw (n : ℕ)
deriving DecidableEq

/-- On-disk byte width of a packed field (struct.calcsize of its format). -/
def Packed.size : Packed → ℕ
  | .f32 _ => 4
  | .f16 _ => 2
  | .u8 _ => 1
  | .u16 _ => 2
  | .raw n => n

/-- Total byte count of a written field sequence. -/
def payload_size (l : List Packed) : ℕ := (l.map Packed.size).sum

/-- Concatenation of the per-record field lists (the file is written record
after record). -/
def flat : List (List Packed) → List Packed
  | [] => []
  | l :: ls => l ++ flat ls

/-- int(x * 255): the 8-bit normalized packing the source applies inline to
vertex colors, material diffuse/specular/roughness and bone weights. -/
def packUnorm8 (x : ℚ) : ℤ := pyint (x * 255)

/-! ## Animation sampling and keyframe reduction (write_dbanim) -/

/-- framestep = bpy.context.scene.render.fps / float(resample_framerate). -/
def framestep (fps rr : ℚ) : ℚ := fps / rr

/-- total_frames = int(duration / framestep); if total_frames == 0: total_frames = 1. -/
def total_frames (b e fps rr : ℚ) : ℤ :=
  if pyint ((e - b) / framestep fps rr) = 0 then 1
  else pyint ((e - b) / framestep fps rr)

/-- frame = begin + int(i * framestep), the frame sampled at loop index i. -/
def sample_frame (b fps rr : ℚ) (i : ℕ) : ℚ :=
  b + ((pyint ((i : ℚ) * framestep fps rr) : ℤ) : ℚ)

/-- time = float(frame) / bpy.context.scene.render.fps. -/
def sample_time (b fps rr : ℚ) (i : ℕ) : ℚ := sample_frame b fps rr i / fps

/-- The list of frames visited by the main sampling loop (for i in range(total_frames)). -/
def main_samples (b e fps rr : ℚ) : List ℚ :=
  (List.range (total_frames b e fps rr).toNat).map (sample_frame b fps rr)

/-- Common shape of append_track_vec3 / append_track_quat: append (time, value)
if the track is empty or the most recently appended value is far from the new one. -/
def append_track {V : Type} (far : V → V → Bool) (track : List (ℚ × V))
    (time : ℚ) (value : V) : List (ℚ × V) :=
  match track.getLast? with
  | none => track ++ [(time, value)]
  | some last => if far last.2 value then track ++ [(time, value)] else track

/-- The vec3 farness test (track[-1][1] - value).length > err, expressed
exactly over rationals: length > err iff err < 0 or err^2 < squared distance. -/
def far_vec3 (err : ℚ) (a b : Vec3) : Bool :=
  decide (err < 0 ∨ err * err < distSq a b)

/-- append_track_vec3 from the source. -/
def append_track_vec3 (track : List (ℚ × Vec3)) (time : ℚ) (value : Vec3) (err : ℚ) :
    List (ℚ × Vec3) :=
  append_track (far_vec3 err) track time value

/-- The quaternion farness test degrees(last.rotation_difference(value).angle) > err.
The angular measure (a transcendental function of the two quaternions) is kept
as an explicit parameter angleDeg of the embedding. -/
def far_quat (angleDeg : Quat → Quat → ℚ) (err : ℚ) (a b : Quat) : Bool :=
  decide (err < angleDeg a b)

/-- append_track_quat from the source, parameterized by the angular measure. -/
def append_track_quat (angleDeg : Quat → Quat → ℚ) (track : List (ℚ × Quat))
    (time : ℚ) (value : Quat) (err : ℚ) : List (ℚ × Quat) :=
  append_track (far_quat angleDeg err) track time value

/-- The per-bone per-channel track after the main sampling loop.  In the source
the loop interleaves all bones and channels, but each individual track is only
touched by its own append calls, so per-track the loop is this fold. -/
def main_track {V : Type} (far : V → V → Bool) (sample : ℚ → V) (b e fps rr : ℚ) :
    List (ℚ × V) :=
  (main_samples b e fps rr).foldl (fun tr fr => append_track far tr (fr / fps) (sample fr)) []

/-- Loop-safety guard: begin + int((total_frames - 1) * framestep) < end. -/
def loop_cond (b e fps rr : ℚ) : Bool :=
  decide (b + (pyint ((((total_frames b e fps rr) : ℚ) - 1) * framestep fps rr) : ℚ) < e)

/-- The finished per-bone per-channel track: the main loop, then (when the
guard holds) one extra sample taken at frame int(end) with time end / fps,
run through the same append logic. -/
def build_track {V : Type} (far : V → V → Bool) (sample : ℚ → V) (b e fps rr : ℚ) :
    List (ℚ × V) :=
  if loop_cond b e fps rr then
    append_track far (main_track far sample b e fps rr) (e / fps) (sample ((pyint e : ℤ) : ℚ))
  else main_track far sample b e fps rr

/-- Clip frame range: begin/end accumulators start at 0 and are folded over
the strips (if strip.frame_start < begin ... if strip.frame_end > end ...). -/
def clip_range (strips : List (ℚ × ℚ)) : ℚ × ℚ :=
  strips.foldl
    (fun be strip =>
      (if strip.1 < be.1 then strip.1 else be.1,
       if strip.2 > be.2 then strip.2 else be.2))
    (0, 0)

/-! ## Skeleton chunk (write_dbmesh, SKEL section) -/

/-- 4x4 rational matrix (exact-value model of mathutils.Matrix). -/
abbrev Mat4 := Matrix (Fin 4) (Fin 4) ℚ

/-- Matrix.inverted(): the nonsingular inverse, computed via the adjugate. -/
def Mat4.inverted (m : Mat4) : Mat4 := m.det⁻¹ • m.adjugate

/-- mathutils.Matrix.Rotation(radians(-90.0), 4, 'X') with exact cosine and
sine values (0 and -1). -/
def rot_x_neg90 : Mat4 := !![1, 0, 0, 0; 0, 0, 1, 0; 0, -1, 0, 0; 0, 0, 0, 1]

/-- mathutils.Matrix.Rotation(radians(180.0), 4, 'Z') with exact cosine and
sine values (-1 and 0). -/
def rot_z_180 : Mat4 := !![-1, 0, 0, 0; 0, -1, 0, 0; 0, 0, 1, 0; 0, 0, 0, 1]

/-- blender_to_db_mat() from the source. -/
def blender_to_db_mat : Mat4 := rot_x_neg90 * rot_z_180

/-- An armature bone as the skeleton writer consumes it: its name, its rest
matrix (bone.matrix_local), its parent's rest matrix when it has a parent,
and len(bone.children). -/
structure Bone where
  name : String
  matrix_local : Mat4
  parent_matrix_local : Option Mat4
  child_count : ℕ

/-- invbindmat = (blender_to_db_mat() @ bone.matrix_local).inverted(). -/
def invbindmat (bn : Bone) : Mat4 :=
  Mat4.inverted (blender_to_db_mat * bn.matrix_local)

/-- restpose = blender_to_db_mat() @ bone.matrix_local, pre-multiplied by
(blender_to_db_mat() @ bone.parent.matrix_local).inverted() when the bone has
a parent. -/
def restpose (bn : Bone) : Mat4 :=
  match bn.parent_matrix_local with
  | none => blender_to_db_mat * bn.matrix_local
  | some pm => Mat4.inverted (blender_to_db_mat * pm) * (blender_to_db_mat * bn.matrix_local)

/-- for row in m: f.write(struct.pack('ffff', row[0], row[1], row[2], row[3])) —
sixteen f32 fields in row-major order. -/
def pack_rows (m : Mat4) : List Packed :=
  [Packed.f32 (m 0 0), Packed.f32 (m 0 1), Packed.f32 (m 0 2), Packed.f32 (m 0 3),
   Packed.f32 (m 1 0), Packed.f32 (m 1 1), Packed.f32 (m 1 2), Packed.f32 (m 1 3),
   Packed.f32 (m 2 0), Packed.f32 (m 2 1), Packed.f32 (m 2 2), Packed.f32 (m 2 3),
   Packed.f32 (m 3 0), Packed.f32 (m 3 1), Packed.f32 (m 3 2), Packed.f32 (m 3 3)]

/-- The fields written for one bone: inverse bind matrix (16 f32), rest pose
(16 f32), bone index (u8), child count (u8). -/
def bone_record (boneid : ℕ) (bn : Bone) : List Packed :=
  pack_rows (invbindmat bn) ++ pack_rows (restpose bn) ++
    [Packed.u8 (boneid : ℤ), Packed.u8 (bn.child_count : ℤ)]

/-- The SKEL bone loop: builds the bone-name-to-index map entries and the
payload, incrementing boneid once per bone. -/
def write_skel_bones : List Bone → ℕ → List (String × ℕ) × List Packed
  | [], _ => ([], [])
  | bn :: rest, boneid =>
    ((bn.name, boneid) :: (write_skel_bones rest (boneid + 1)).1,
     bone_record boneid bn ++ (write_skel_bones rest (boneid + 1)).2)

/-- The skinning-export section of write_dbmesh: given export_skinning and the
armatures found in the scene (each given by its bone list), returns the
bonemap together with (declared chunk size, payload fields) of the emitted
SKEL chunk, or none when no chunk is emitted.  The > 256 bone sanity check
reports and skips the chunk, leaving the bonemap empty. -/
def skel_section (exportSkinning : Bool) (armatures : List (List Bone)) :
    List (String × ℕ) × Option (ℕ × List Packed) :=
  match exportSkinning, armatures with
  | true, bones :: _ =>
    if bones.length > 256 then ([], none)
    else ((write_skel_bones bones 0).1,
          some (130 * bones.length, (write_skel_bones bones 0).2))
  | _, _ => ([], none)

/-! ## Vertex skin-weight selection (write_dbmesh, per-vertex loop) -/

/-- One pass of the slot loop: for i in range(2): if weight > bweight[i]:
bweight[i] = weight; bidx[i] = bone_idx; break.  The accumulator is the pair
of slot weights together with the pair of slot bone indices. -/
def place_weight (acc : (ℚ × ℚ) × (ℕ × ℕ)) (w : ℚ) (bidx : ℕ) : (ℚ × ℚ) × (ℕ × ℕ) :=
  if w > acc.1.1 then ((w, acc.1.2), (bidx, acc.2.2))
  else if w > acc.1.2 then ((acc.1.1, w), (acc.2.1, bidx))
  else acc

/-- The scan over vert.vert[deform_layer].items(): each (group index, weight)
pair is translated through mesh.vertex_groups and the bonemap before the slot
loop runs.  A group index outside vertex_groups raises (IndexError) and a
group name absent from the bonemap dict raises (KeyError); either exception
aborts write_dbmesh. -/
def scan_weights (bonemap : List (String × ℕ)) (vertex_groups : List String) :
    List (ℕ × ℚ) → (ℚ × ℚ) × (ℕ × ℕ) → Except String ((ℚ × ℚ) × (ℕ × ℕ))
  | [], acc => .ok acc
  | (gi, w) :: rest, acc =>
    match vertex_groups.get? gi with
    | none => .error "IndexError"
    | some gname =>
      match List.lookup gname bonemap with
      | none => .error "KeyError"
      | some bidx => scan_weights bonemap vertex_groups rest (place_weight acc w bidx)

/-- Renormalization after the scan: only when both retained weights are
positive are they divided by their sum. -/
def renorm (acc : (ℚ × ℚ) × (ℕ × ℕ)) : (ℚ × ℚ) × (ℕ × ℕ) :=
  if acc.1.1 > 0 ∧ acc.1.2 > 0 then
    ((acc.1.1 / (acc.1.1 + acc.1.2), acc.1.2 / (acc.1.1 + acc.1.2)), acc.2)
  else acc

/-- The complete per-vertex skinning computation: scan starting from
bweight = [0, 0], bidx = [0, 0], then renormalize. -/
def vertex_skin (bonemap : List (String × ℕ)) (vertex_groups : List String)
    (items : List (ℕ × ℚ)) : Except String ((ℚ × ℚ) × (ℕ × ℕ)) :=
  (scan_weights bonemap vertex_groups items ((0, 0), (0, 0))).map renorm

/-! ## Mesh chunk (write_dbmesh, MESH section) -/

/-- The values the material summary writer reads from a material slot. -/
structure MaterialInfo where
  node_tree : Bool
  has_image_node : Bool
  blend : Bool
  backface_culling : Bool
  diffuse : Vec4
  specular : Vec3
  roughness : ℚ

/-- The material-summary fields: the 32-byte id, then has-texture (written
only when the material has a node tree), blend enable, backface culling,
diffuse rgba, specular rgb and roughness; the defaults branch when the mesh
has no material slot. -/
def material_block : Option MaterialInfo → List Packed
  | some m =>
    [Packed.raw 32] ++
    (if m.node_tree then [Packed.u8 (if m.has_image_node then 1 else 0)] else []) ++
    [Packed.u8 (if m.blend then 1 else 0),
     Packed.u8 (if m.backface_culling then 1 else 0),
     Packed.u8 (packUnorm8 m.diffuse.x), Packed.u8 (packUnorm8 m.diffuse.y),
     Packed.u8 (packUnorm8 m.diffuse.z), Packed.u8 (packUnorm8 m.diffuse.w),
     Packed.u8 (packUnorm8 m.specular.x), Packed.u8 (packUnorm8 m.specular.y),
     Packed.u8 (packUnorm8 m.specular.z),
     Packed.u8 (packUnorm8 m.roughness)]
  | none =>
    [Packed.raw 32,
     Packed.u8 0, Packed.u8 0, Packed.u8 1,
     Packed.u8 255, Packed.u8 255, Packed.u8 255, Packed.u8 255,
     Packed.u8 0, Packed.u8 0, Packed.u8 0,
     Packed.u8 255]

/-- The values packed for one vertex before half/byte conversion. -/
structure VertexFields where
  pos : Vec3
  normal : Vec3
  color : ℤ × ℤ × ℤ × ℤ
  uv : ℚ × ℚ
  weights : ℤ × ℤ
  indices : ℕ × ℕ
deriving DecidableEq

/-- The per-vertex pack call
struct.pack('eeeeeeBBBBeeBBBB', -p.x, p.z, p.y, -n.x, n.z, n.y,
int(col.x*255), int(col.y*255), int(col.z*255), int(col.w*255),
tc.x, 1.0 - tc.y, int(bweight[0]*255), int(bweight[1]*255), bidx[0], bidx[1]). -/
def pack_vertex (p n : Vec3) (col : Vec4) (tc : ℚ × ℚ) (bw : ℚ × ℚ) (bi : ℕ × ℕ) :
    VertexFields :=
  { pos := ⟨-p.x, p.z, p.y⟩
    normal := ⟨-n.x, n.z, n.y⟩
    color := (packUnorm8 col.x, packUnorm8 col.y, packUnorm8 col.z, packUnorm8 col.w)
    uv := (tc.1, 1 - tc.2)
    weights := (packUnorm8 bw.1, packUnorm8 bw.2)
    indices := bi }

/-- The byte layout of one packed vertex, following the format string
eeeeeeBBBBeeBBBB field by field (eight f16 fields and eight u8 fields). -/
def vertex_packed (v : VertexFields) : List Packed :=
  [Packed.f16 v.pos.x, Packed.f16 v.pos.y, Packed.f16 v.pos.z,
   Packed.f16 v.normal.x, Packed.f16 v.normal.y, Packed.f16 v.normal.z,
   Packed.u8 v.color.1, Packed.u8 v.color.2.1, Packed.u8 v.color.2.2.1, Packed.u8 v.color.2.2.2,
   Packed.f16 v.uv.1, Packed.f16 v.uv.2,
   Packed.u8 v.weights.1, Packed.u8 v.weights.2,
   Packed.u8 (v.indices.1 : ℤ), Packed.u8 (v.indices.2 : ℤ)]

/-- The declared MESH chunk size written to the size field:
32 + 40 + 42 + (len(bm.faces) * 3 * 20). -/
def mesh_chunk_declared_size (faceCount : ℕ) : ℕ := 32 + 40 + 42 + faceCount * 3 * 20

/-- The fields actually written after the MESH size field: the 32-byte mesh
id, translation (3 f32), rotation (4 f32, reordered from the (w,x,y,z)
storage by the pack call), scale (3 f32), the material summary, the u16
triangle count, and the packed vertices of every face loop. -/
def mesh_payload (loc : Vec3) (rotq : Quat) (scale : Vec3) (mat : Option MaterialInfo)
    (faceCount : ℕ) (verts : List VertexFields) : List Packed :=
  [Packed.raw 32] ++
  [Packed.f32 loc.x, Packed.f32 loc.y, Packed.f32 loc.z] ++
  [Packed.f32 rotq.x, Packed.f32 rotq.y, Packed.f32 rotq.z, Packed.f32 rotq.w] ++
  [Packed.f32 scale.x, Packed.f32 scale.y, Packed.f32 scale.z] ++
  material_block mat ++
  [Packed.u16 faceCount] ++
  flat (verts.map vertex_packed)

/-- Axis conversion written in the spec's words: swap the Y and Z components. -/
def swap_yz (v : Vec3) : Vec3 := ⟨v.x, v.z, v.y⟩

/-- Axis conversion written in the spec's words: negate the first component. -/
def negate_x (v : Vec3) : Vec3 := ⟨-v.x, v.y, v.z⟩

/-! ## Concrete inputs used by witnesses and counterexamples -/

/-- The zero vector. -/
def v3zero : Vec3 := ⟨0, 0, 0⟩

/-- The all-ones vector. -/
def v3one : Vec3 := ⟨1, 1, 1⟩

/-- The identity quaternion. -/
def quat_id : Quat := ⟨0, 0, 0, 1⟩

/-- A sample function whose x coordinate follows the frame number. -/
def sample_ramp : ℚ → Vec3 := fun f => ⟨f, 0, 0⟩

/-- A root bone at the rest pose. -/
def bone_a : Bone := ⟨"root", 1, none, 1⟩

/-- A child of bone_a, also at the rest pose. -/
def bone_b : Bone := ⟨"child", 1, some 1, 0⟩

/-- A generic bone used to build oversized armatures. -/
def dummy_bone : Bone := ⟨"b", 1, none, 0⟩

/-- A concrete packed vertex. -/
def vf0 : VertexFields := pack_vertex v3zero v3zero ⟨1, 1, 1, 1⟩ (0, 0) (0, 0) (0, 0)

/-! ## Helper lemmas -/

/-- Python int() agrees with the floor on nonnegative arguments. -/
theorem pyint_of_nonneg {q : ℚ} (h : 0 ≤ q) : pyint q = ⌊q⌋ := if_pos h

/-- Byte counts add over concatenation of field lists. -/
theorem payload_size_append (l1 l2 : List Packed) :
    payload_size (l1 ++ l2) = payload_size l1 + payload_size l2 := by
  simp [payload_size]

/-! ## C7: axis conversion applied to positions and normals -/

/-- C7: for every vertex, the packed position and the packed normal are the
input vectors transformed by the single fixed conversion that swaps the Y and
Z components and negates the X component, applied identically to both at
write time. -/
theorem mesh_axis_conversion (p n : Vec3) (col : Vec4) (tc : ℚ × ℚ)
    (bw : ℚ × ℚ) (bi : ℕ × ℕ) :
    (pack_vertex p n col tc bw bi).pos = negate_x (swap_yz p) ∧
    (pack_vertex p n col tc bw bi).normal = negate_x (swap_yz n) :=
  ⟨rfl, rfl⟩

/-! ## C8: 8-bit normalized packing truncates, it does not round -/

/-- C8 (counterexample): at x = 1/2 the code's int(x * 255) produces 127 while
round(x * 255) is 128, so the packed byte is not round(x*255). -/
theorem packUnorm8_round_cex :
    packUnorm8 (1 / 2) = 127 ∧ round ((1 / 2 : ℚ) * 255) = 128 ∧
    packUnorm8 (1 / 2) ≠ round ((1 / 2 : ℚ) * 255) := by
  have h1 : packUnorm8 (1 / 2) = 127 := by norm_num [packUnorm8, pyint]
  have h2 : round ((1 / 2 : ℚ) * 255) = 128 := by norm_num [round_eq]
  refine ⟨h1, h2, ?_⟩
  rw [h1, h2]
  decide

/-- C8 (amended): for every x in [0, 1], packing to an 8-bit normalized
channel produces the byte trunc(x * 255), which for nonnegative x is
floor(x * 255), not round(x * 255). -/
theorem packUnorm8_truncates (x : ℚ) (h0 : 0 ≤ x) (_h1 : x ≤ 1) :
    packUnorm8 x = ⌊x * 255⌋ :=
  pyint_of_nonneg (mul_nonneg h0 (by norm_num))

/-- Witness for packUnorm8_truncates at x = 1. -/
theorem packUnorm8_truncates_witness :
    (0 : ℚ) ≤ 1 ∧ (1 : ℚ) ≤ 1 ∧ packUnorm8 1 = ⌊(1 : ℚ) * 255⌋ :=
  ⟨by decide, by decide, packUnorm8_truncates 1 (by decide) (by decide)⟩

/-! ## C5: skin-weight selection -/

/-- C5 (counterexample): the claim's scenario — weight groups A:0.5, B:0.3,
C:0.2 where only A and B map to valid bones — does not yield the renormalized
pair (0.625, 0.375): the lookup of C in the bone map raises KeyError and the
export aborts. -/
theorem vertex_skin_unmapped_group_cex :
    vertex_skin [("A", 0), ("B", 1)] ["A", "B", "C"]
      [(0, 1 / 2), (1, 3 / 10), (2, 1 / 5)] = .error "KeyError" ∧
    vertex_skin [("A", 0), ("B", 1)] ["A", "B", "C"]
      [(0, 1 / 2), (1, 3 / 10), (2, 1 / 5)] ≠ .ok ((5 / 8, 3 / 8), (0, 1)) := by
  have h : vertex_skin [("A", 0), ("B", 1)] ["A", "B", "C"]
      [(0, 1 / 2), (1, 3 / 10), (2, 1 / 5)] = .error "KeyError" := by
    simp [vertex_skin, scan_weights, List.lookup, place_weight, Except.map]
  refine ⟨h, ?_⟩
  rw [h]
  simp

/-- C5 (amended): when every weight group maps to a valid bone, the two
retained entries follow the first-fit-replace rule and are renormalized to
sum to one exactly when both are non-zero; the scenario A:0.5, B:0.3, C:0.2
with all three groups valid retains (A, 0.5), (B, 0.3) renormalized to
(0.625, 0.375).  A group missing from the bone map instead raises KeyError. -/
theorem vertex_skin_first_fit (acc : (ℚ × ℚ) × (ℕ × ℕ))
    (h0 : 0 < acc.1.1) (h1 : 0 < acc.1.2) :
    vertex_skin [("A", 0), ("B", 1), ("C", 2)] ["A", "B", "C"]
      [(0, 1 / 2), (1, 3 / 10), (2, 1 / 5)] = .ok ((5 / 8, 3 / 8), (0, 1)) ∧
    (renorm acc).1.1 + (renorm acc).1.2 = 1 ∧
    (renorm acc).2 = acc.2 := by
  have hsum : acc.1.1 + acc.1.2 ≠ 0 := ne_of_gt (add_pos h0 h1)
  refine ⟨?_, ?_, ?_⟩
  · simp [vertex_skin, scan_weights, List.lookup, place_weight, renorm, Except.map]
    norm_num
  · rw [renorm, if_pos ⟨h0, h1⟩]
    field_simp
  · rw [renorm, if_pos ⟨h0, h1⟩]

/-- Witness for vertex_skin_first_fit at the accumulator ((1, 1), (2, 3)). -/
theorem vertex_skin_first_fit_witness :
    (0 : ℚ) < 1 ∧
    (renorm ((1, 1), (2, 3))).1.1 + (renorm ((1, 1), (2, 3))).1.2 = 1 ∧
    (renorm ((1, 1), (2, 3))).2 = ((1, 1), (2, 3)).2 :=
  ⟨by decide, (vertex_skin_first_fit ((1, 1), (2, 3)) (by decide) (by decide)).2.1,
   (vertex_skin_first_fit ((1, 1), (2, 3)) (by decide) (by decide)).2.2⟩

/-! ## C2: armature with more than 256 bones -/

/-- C2: with 257 bones the SKEL chunk is skipped and the bone map stays
empty, as claimed; but vertex skinning then does not degrade to (0, 0) pairs:
the first deform entry of any vertex hits the empty bone map and raises
KeyError, aborting the export. -/
theorem oversized_armature_keyerror :
    skel_section true [List.replicate 257 dummy_bone] = ([], none) ∧
    vertex_skin [] ["g"] [(0, 1)] = .error "KeyError" ∧
    vertex_skin [] ["g"] [(0, 1)] ≠ .ok ((0, 0), (0, 0)) := by
  refine ⟨?_, ?_, ?_⟩
  · have h : (List.replicate 257 dummy_bone).length > 256 := by
      rw [List.length_replicate]
      norm_num
    simp only [skel_section]
    rw [if_pos h]
  · simp [vertex_skin, scan_weights, List.lookup, Except.map]
  · simp [vertex_skin, scan_weights, List.lookup, Except.map]

/-! ## C6: MESH chunk declared size versus written bytes -/

/-- C6: the declared MESH chunk size 32 + 40 + 42 + faces*3*20 does not match
the written payload: with one triangle and no material the size field says
174 while 189 bytes are written — the default material summary is 43 bytes,
not 42, the u16 triangle count is not counted, and each packed vertex is 24
bytes (calcsize of eeeeeeBBBBeeBBBB), not 20. -/
theorem mesh_chunk_size_mismatch :
    mesh_chunk_declared_size 1 = 174 ∧
    payload_size (mesh_payload v3zero quat_id v3one none 1 [vf0, vf0, vf0]) = 189 ∧
    payload_size (material_block none) = 43 ∧
    payload_size (vertex_packed vf0) = 24 ∧
    mesh_chunk_declared_size 1 ≠
      payload_size (mesh_payload v3zero quat_id v3one none 1 [vf0, vf0, vf0]) := by
  refine ⟨rfl, rfl, rfl, rfl, by decide⟩

/-! ## C3: main sampling loop -/

/-- C3: the main loop visits exactly max(1, floor((end-begin)/framestep))
samples, sampling frame begin + floor(i * framestep) at index i, and the time
stored with each sample is frame / fps, independent of the resample rate. -/
theorem dbanim_resampling (b e fps rr : ℚ) (hfps : 0 < fps) (hrr : 0 < rr)
    (hbe : b ≤ e) :
    total_frames b e fps rr = max 1 ⌊(e - b) / (fps / rr)⌋ ∧
    (main_samples b e fps rr).length = (max 1 ⌊(e - b) / (fps / rr)⌋).toNat ∧
    (∀ i : ℕ, sample_frame b fps rr i = b + (⌊(i : ℚ) * (fps / rr)⌋ : ℚ)) ∧
    (∀ i : ℕ, sample_time b fps rr i = sample_frame b fps rr i / fps) := by
  have hs : 0 < fps / rr := div_pos hfps hrr
  have hD : 0 ≤ (e - b) / (fps / rr) := div_nonneg (by linarith) hs.le
  have h1 : total_frames b e fps rr = max 1 ⌊(e - b) / (fps / rr)⌋ := by
    unfold total_frames framestep
    rw [pyint_of_nonneg hD]
    have h0 : (0 : ℤ) ≤ ⌊(e - b) / (fps / rr)⌋ := Int.floor_nonneg.mpr hD
    by_cases hz : ⌊(e - b) / (fps / rr)⌋ = 0
    · simp [hz]
    · rw [if_neg hz]
      exact (max_eq_right (by omega : (1 : ℤ) ≤ ⌊(e - b) / (fps / rr)⌋)).symm
  refine ⟨h1, ?_, ?_, fun i => rfl⟩
  · simp [main_samples, h1]
  · intro i
    unfold sample_frame framestep
    rw [pyint_of_nonneg (mul_nonneg (Nat.cast_nonneg i) hs.le)]

/-- Witness for dbanim_resampling: begin 0, end 30, fps 30, resample rate 15. -/
theorem dbanim_resampling_witness :
    total_frames 0 30 30 15 = max 1 ⌊((30 : ℚ) - 0) / (30 / 15)⌋ ∧
    (main_samples 0 30 30 15).length = (max 1 ⌊((30 : ℚ) - 0) / (30 / 15)⌋).toNat :=
  ⟨(dbanim_resampling 0 30 30 15 (by decide) (by decide) (by decide)).1,
   (dbanim_resampling 0 30 30 15 (by decide) (by decide) (by decide)).2.1⟩

/-! ## C4: loop-safety sample -/

/-- total_frames is at least 1 whenever begin does not exceed end. -/
theorem total_frames_pos (b e fps rr : ℚ) (hfps : 0 < fps) (hrr : 0 < rr)
    (hbe : b ≤ e) : 1 ≤ total_frames b e fps rr := by
  have hs : 0 < fps / rr := div_pos hfps hrr
  have hD : 0 ≤ (e - b) / (fps / rr) := div_nonneg (by linarith) hs.le
  unfold total_frames framestep
  rw [pyint_of_nonneg hD]
  have h0 : (0 : ℤ) ≤ ⌊(e - b) / (fps / rr)⌋ := Int.floor_nonneg.mpr hD
  split <;> omega

/-- The loop-safety guard fires whenever begin is strictly before end. -/
theorem loop_cond_of_lt (b e fps rr : ℚ) (hfps : 0 < fps) (hrr : 0 < rr)
    (hbe : b < e) : loop_cond b e fps rr = true := by
  have hs : 0 < fps / rr := div_pos hfps hrr
  have hD : 0 ≤ (e - b) / (fps / rr) := div_nonneg (by linarith) hs.le
  unfold loop_cond total_frames framestep
  rw [pyint_of_nonneg hD]
  simp only [decide_eq_true_eq]
  have h0 : (0 : ℤ) ≤ ⌊(e - b) / (fps / rr)⌋ := Int.floor_nonneg.mpr hD
  have htle : ((⌊(e - b) / (fps / rr)⌋ : ℤ) : ℚ) ≤ (e - b) / (fps / rr) := Int.floor_le _
  by_cases hz : ⌊(e - b) / (fps / rr)⌋ = 0
  · rw [if_pos hz]
    have he : (((1 : ℤ) : ℚ) - 1) * (fps / rr) = 0 := by push_cast; ring
    rw [he]
    have : pyint 0 = 0 := by norm_num [pyint]
    rw [this]
    push_cast
    linarith
  · rw [if_neg hz]
    set t : ℤ := ⌊(e - b) / (fps / rr)⌋ with ht
    have h1t : (1 : ℤ) ≤ t := by omega
    have h1q : (1 : ℚ) ≤ (t : ℚ) := by exact_mod_cast h1t
    have hnn : 0 ≤ ((t : ℚ) - 1) * (fps / rr) := mul_nonneg (by linarith) hs.le
    rw [pyint_of_nonneg hnn]
    have hfl : ((⌊((t : ℚ) - 1) * (fps / rr)⌋ : ℤ) : ℚ) ≤ ((t : ℚ) - 1) * (fps / rr) :=
      Int.floor_le _
    have hts : (t : ℚ) * (fps / rr) ≤ e - b := (le_div_iff₀ hs).mp htle
    nlinarith [hs]

/-- C4 (counterexample): with begin 0, end 1, fps 30, resample rate 15 the
duration 1 is not a multiple of the step 2 (its floor-quotient is 0), yet for
the constant sample the finished track is the single key at time 0, whose
time differs from end / fps = 1/30: the loop-safety sample was rejected by
the threshold test, so the final emitted time is not end / fps. -/
theorem dbanim_final_time_cex :
    (1 : ℚ) - 0 ≠ ((⌊((1 : ℚ) - 0) / (30 / 15)⌋ : ℤ) : ℚ) * (30 / 15) ∧
    (build_track (far_vec3 1) (fun _ => v3zero) 0 1 30 15).getLast? = some (0, v3zero) ∧
    (0 : ℚ) ≠ 1 / 30 := by
  refine ⟨by norm_num, ?_, by norm_num⟩
  have h1 : total_frames 0 1 30 15 = 1 := by norm_num [total_frames, framestep, pyint]
  have h2 : main_samples 0 1 30 15 = [0] := by
    rw [main_samples, h1]
    norm_num [sample_frame, framestep, pyint, List.range_succ]
  have hmain : main_track (far_vec3 1) (fun _ => v3zero) 0 1 30 15 = [(0, v3zero)] := by
    rw [main_track, h2]
    norm_num [append_track]
  have hcond : loop_cond 0 1 30 15 = true :=
    loop_cond_of_lt 0 1 30 15 (by norm_num) (by norm_num) (by norm_num)
  rw [build_track, if_pos hcond, hmain]
  norm_num [append_track, far_vec3, distSq, v3zero, pyint]

/-- When the loop-safety guard holds and the extra sample passes the
threshold test against the last main-loop key, the finished track ends with
the extra key at time end / fps. -/
theorem build_track_last_pass {V : Type} (far : V → V → Bool) (sample : ℚ → V)
    (b e fps rr : ℚ) (hc : loop_cond b e fps rr = true) (t : ℚ) (v : V)
    (hlast : (main_track far sample b e fps rr).getLast? = some (t, v))
    (hfar : far v (sample ((pyint e : ℤ) : ℚ)) = true) :
    (build_track far sample b e fps rr).getLast? =
      some (e / fps, sample ((pyint e : ℤ) : ℚ)) := by
  rw [build_track, if_pos hc, append_track, hlast]
  simp only [hfar, if_true]
  exact List.getLast?_concat _

/-- When the loop-safety guard holds but the extra sample fails the threshold
test, the finished track keeps the last main-loop key. -/
theorem build_track_last_fail {V : Type} (far : V → V → Bool) (sample : ℚ → V)
    (b e fps rr : ℚ) (hc : loop_cond b e fps rr = true) (t : ℚ) (v : V)
    (hlast : (main_track far sample b e fps rr).getLast? = some (t, v))
    (hfar : far v (sample ((pyint e : ℤ) : ℚ)) = false) :
    (build_track far sample b e fps rr).getLast? = some (t, v) := by
  rw [build_track, if_pos hc, append_track, hlast]
  simp [hfar, hlast]

/-- C4 (amended): whenever begin is strictly before end — in particular
whenever (end - begin) is not an exact multiple of the resample step — the
loop-safety branch runs: one extra sample is taken at frame int(end) with
time end / fps and fed through the same append logic.  For every track —
position and scale with their far_vec3 tests and rotation with its far_quat
angular test alike — the finished track's final key is the extra key at time
end / fps exactly when the threshold test lets it be appended, and otherwise
the track keeps its last main-loop key with its earlier time. -/
theorem dbanim_loop_safety (b e fps rr perr rerr serr : ℚ)
    (samplePos sampleScale : ℚ → Vec3) (sampleRot : ℚ → Quat)
    (angleDeg : Quat → Quat → ℚ)
    (hfps : 0 < fps) (hrr : 0 < rr) (hbe : b ≤ e)
    (hnm : ∀ k : ℤ, e - b ≠ (k : ℚ) * (fps / rr)) :
    loop_cond b e fps rr = true ∧
    (∀ {V : Type} (far : V → V → Bool) (sample : ℚ → V) (t : ℚ) (v : V),
      (main_track far sample b e fps rr).getLast? = some (t, v) →
      (build_track far sample b e fps rr).getLast? =
        (if far v (sample ((pyint e : ℤ) : ℚ)) then
          some (e / fps, sample ((pyint e : ℤ) : ℚ))
        else some (t, v))) ∧
    (∀ t v, (main_track (far_vec3 perr) samplePos b e fps rr).getLast? = some (t, v) →
      (build_track (far_vec3 perr) samplePos b e fps rr).getLast? =
        (if far_vec3 perr v (samplePos ((pyint e : ℤ) : ℚ)) then
          some (e / fps, samplePos ((pyint e : ℤ) : ℚ))
        else some (t, v))) ∧
    (∀ t v, (main_track (far_quat angleDeg rerr) sampleRot b e fps rr).getLast? =
        some (t, v) →
      (build_track (far_quat angleDeg rerr) sampleRot b e fps rr).getLast? =
        (if far_quat angleDeg rerr v (sampleRot ((pyint e : ℤ) : ℚ)) then
          some (e / fps, sampleRot ((pyint e : ℤ) : ℚ))
        else some (t, v))) ∧
    (∀ t v, (main_track (far_vec3 serr) sampleScale b e fps rr).getLast? = some (t, v) →
      (build_track (far_vec3 serr) sampleScale b e fps rr).getLast? =
        (if far_vec3 serr v (sampleScale ((pyint e : ℤ) : ℚ)) then
          some (e / fps, sampleScale ((pyint e : ℤ) : ℚ))
        else some (t, v))) := by
  have hlt : b < e := by
    rcases eq_or_lt_of_le hbe with h | h
    · exact absurd (by rw [← h]; push_cast; ring : e - b = ((0 : ℤ) : ℚ) * (fps / rr)) (hnm 0)
    · exact h
  have hc := loop_cond_of_lt b e fps rr hfps hrr hlt
  have hgen : ∀ {V : Type} (far : V → V → Bool) (sample : ℚ → V) (t : ℚ) (v : V),
      (main_track far sample b e fps rr).getLast? = some (t, v) →
      (build_track far sample b e fps rr).getLast? =
        (if far v (sample ((pyint e : ℤ) : ℚ)) then
          some (e / fps, sample ((pyint e : ℤ) : ℚ))
        else some (t, v)) := by
    intro V far sample t v hlast
    by_cases hf : far v (sample ((pyint e : ℤ) : ℚ)) = true
    · rw [if_pos hf]
      exact build_track_last_pass far sample b e fps rr hc t v hlast hf
    · have hf2 : far v (sample ((pyint e : ℤ) : ℚ)) = false := by
        simpa using hf
      rw [if_neg hf]
      exact build_track_last_fail far sample b e fps rr hc t v hlast hf2
  exact ⟨hc, hgen, fun t v h => hgen _ _ t v h, fun t v h => hgen _ _ t v h,
    fun t v h => hgen _ _ t v h⟩

/-- Witness for dbanim_loop_safety on the position channel: begin 0, end 1,
fps 30, resample rate 15, error 1/2, sampling a ramp that moves one unit per
frame; the extra sample passes the test, so the final key time is 1/30. -/
theorem dbanim_loop_safety_witness :
    (build_track (far_vec3 (1 / 2)) sample_ramp 0 1 30 15).getLast? =
      (if far_vec3 (1 / 2) v3zero (sample_ramp ((pyint 1 : ℤ) : ℚ)) then
        some (1 / 30, sample_ramp ((pyint 1 : ℤ) : ℚ))
      else some (0, v3zero)) :=
  (dbanim_loop_safety 0 1 30 15 (1 / 2) 1 (1 / 2) sample_ramp sample_ramp
      (fun _ => quat_id) (fun _ _ => 0) (by norm_num) (by norm_num) (by norm_num)
      (by
        intro k hk
        have h2 : ((2 * k : ℤ) : ℚ) = 1 := by push_cast; linarith [hk]
        have h3 : (2 * k : ℤ) = 1 := by exact_mod_cast h2
        omega)).2.2.1
    0 v3zero
    (by
      have h1 : total_frames 0 1 30 15 = 1 := by norm_num [total_frames, framestep, pyint]
      have h2 : main_samples 0 1 30 15 = [0] := by
        rw [main_samples, h1]
        norm_num [sample_frame, framestep, pyint, List.range_succ]
      rw [main_track, h2]
      norm_num [append_track, sample_ramp, v3zero])

/-! ## C9: static pose and non-empty tracks -/

/-- append_track never empties a track. -/
theorem append_track_ne_nil {V : Type} (far : V → V → Bool) (tr : List (ℚ × V))
    (t : ℚ) (v : V) : append_track far tr t v ≠ [] := by
  unfold append_track
  cases h : tr.getLast? with
  | none => simp
  | some last =>
    have htr : tr ≠ [] := by
      intro hnil
      rw [hnil] at h
      simp at h
    by_cases hf : far last.2 v <;> simp [hf, htr]

/-- Folding append_track over any frame list keeps a non-empty track non-empty. -/
theorem foldl_append_track_ne_nil {V : Type} (far : V → V → Bool) (sample : ℚ → V)
    (fps : ℚ) :
    ∀ (l : List ℚ) (tr : List (ℚ × V)), tr ≠ [] →
      l.foldl (fun tr fr => append_track far tr (fr / fps) (sample fr)) tr ≠ [] := by
  intro l
  induction l with
  | nil => intro tr h; exact h
  | cons x xs ih =>
    intro tr _
    rw [List.foldl_cons]
    exact ih _ (append_track_ne_nil far tr (x / fps) (sample x))

/-- The main sampling loop always emits at least the first sample. -/
theorem main_track_ne_nil {V : Type} (far : V → V → Bool) (sample : ℚ → V)
    (b e fps rr : ℚ) (hfps : 0 < fps) (hrr : 0 < rr) (hbe : b ≤ e) :
    main_track far sample b e fps rr ≠ [] := by
  have h1 : 1 ≤ (total_frames b e fps rr).toNat := by
    have := total_frames_pos b e fps rr hfps hrr hbe
    omega
  obtain ⟨m, hm⟩ : ∃ m, (total_frames b e fps rr).toNat = m + 1 :=
    ⟨(total_frames b e fps rr).toNat - 1, by omega⟩
  rw [main_track, main_samples, hm, List.range_succ_eq_map, List.map_cons, List.foldl_cons]
  exact foldl_append_track_ne_nil far sample fps _ _
    (append_track_ne_nil far [] _ _)

/-- Folding append_track with a constant sample value over any further frames
leaves a track whose last value is that constant unchanged. -/
theorem foldl_append_const {V : Type} (far : V → V → Bool) (sample : ℚ → V) (v0 : V)
    (fps : ℚ) (hfar : far v0 v0 = false) (hsample : ∀ f, sample f = v0) :
    ∀ (l : List ℚ) (tr : List (ℚ × V)) (t : ℚ), tr.getLast? = some (t, v0) →
      l.foldl (fun tr fr => append_track far tr (fr / fps) (sample fr)) tr = tr := by
  intro l
  induction l with
  | nil => intro tr t _; rfl
  | cons x xs ih =>
    intro tr t h
    have hstep : append_track far tr (x / fps) (sample x) = tr := by
      simp [append_track, hsample x, h, hfar]
    rw [List.foldl_cons, hstep]
    exact ih tr t h

/-- A constant sample yields the single key laid down at loop index 0. -/
theorem build_track_const {V : Type} (far : V → V → Bool) (v0 : V) (b e fps rr : ℚ)
    (hfps : 0 < fps) (hrr : 0 < rr) (hbe : b ≤ e) (hfar : far v0 v0 = false) :
    build_track far (fun _ => v0) b e fps rr = [(sample_time b fps rr 0, v0)] := by
  rw [sample_time]
  have h1 : 1 ≤ (total_frames b e fps rr).toNat := by
    have := total_frames_pos b e fps rr hfps hrr hbe
    omega
  obtain ⟨m, hm⟩ : ∃ m, (total_frames b e fps rr).toNat = m + 1 :=
    ⟨(total_frames b e fps rr).toNat - 1, by omega⟩
  have h0 : append_track far ([] : List (ℚ × V)) (sample_frame b fps rr 0 / fps) v0 =
      [(sample_frame b fps rr 0 / fps, v0)] := by
    simp [append_track]
  have hmain : main_track far (fun _ => v0) b e fps rr =
      [(sample_frame b fps rr 0 / fps, v0)] := by
    rw [main_track, main_samples, hm, List.range_succ_eq_map, List.map_cons,
      List.foldl_cons, h0]
    exact foldl_append_const far (fun _ => v0) v0 fps hfar (fun _ => rfl) _ _
      (sample_frame b fps rr 0 / fps) (by simp)
  rw [build_track]
  by_cases hc : loop_cond b e fps rr
  · rw [if_pos hc, hmain]
    simp [append_track, hfar]
  · rw [if_neg hc, hmain]

/-- The vec3 threshold test never fires on two equal values when the error
bound is nonnegative. -/
theorem far_vec3_self (err : ℚ) (h : 0 ≤ err) (v : Vec3) : far_vec3 err v v = false := by
  have hd : distSq v v = 0 := by simp [distSq]
  rw [far_vec3, hd]
  exact decide_eq_false (fun hor =>
    hor.elim (fun h1 => absurd h1 (not_lt.mpr h))
      (fun h2 => absurd h2 (not_lt.mpr (mul_self_nonneg err))))

/-- The quaternion threshold test never fires on two equal values when the
error bound is nonnegative and the angular measure vanishes on equal pairs. -/
theorem far_quat_self (angleDeg : Quat → Quat → ℚ) (err : ℚ) (h : 0 ≤ err)
    (hangle : ∀ q, angleDeg q q = 0) (q : Quat) : far_quat angleDeg err q q = false := by
  rw [far_quat, hangle q]
  exact decide_eq_false (not_lt.mpr h)

/-- C9: a bone whose sampled pose is identical at every sampled frame
(including the loop-safety sample) gets exactly one keyframe — the first
sample — in each of its position, rotation and scale tracks, provided the
error thresholds are nonnegative as the exporter options guarantee; and in
general every track contains at least one keyframe. -/
theorem static_pose_single_key (b e fps rr perr rerr serr : ℚ) (p0 s0 : Vec3)
    (q0 : Quat) (angleDeg : Quat → Quat → ℚ)
    (hfps : 0 < fps) (hrr : 0 < rr) (hbe : b ≤ e)
    (hperr : 0 ≤ perr) (hrerr : 0 ≤ rerr) (hserr : 0 ≤ serr)
    (hangle : ∀ q, angleDeg q q = 0) :
    build_track (far_vec3 perr) (fun _ => p0) b e fps rr =
      [(sample_time b fps rr 0, p0)] ∧
    build_track (far_quat angleDeg rerr) (fun _ => q0) b e fps rr =
      [(sample_time b fps rr 0, q0)] ∧
    build_track (far_vec3 serr) (fun _ => s0) b e fps rr =
      [(sample_time b fps rr 0, s0)] ∧
    (∀ {V : Type} (far : V → V → Bool) (sample : ℚ → V),
      build_track far sample b e fps rr ≠ []) := by
  refine ⟨build_track_const _ p0 b e fps rr hfps hrr hbe (far_vec3_self perr hperr p0),
    build_track_const _ q0 b e fps rr hfps hrr hbe
      (far_quat_self angleDeg rerr hrerr hangle q0),
    build_track_const _ s0 b e fps rr hfps hrr hbe (far_vec3_self serr hserr s0),
    ?_⟩
  intro V far sample
  rw [build_track]
  by_cases hc : loop_cond b e fps rr
  · rw [if_pos hc]
    exact append_track_ne_nil far _ _ _
  · rw [if_neg hc]
    exact main_track_ne_nil far sample b e fps rr hfps hrr hbe

/-- Witness for static_pose_single_key: begin 0, end 1, fps 30, resample
rate 15, all thresholds 1, constant poses. -/
theorem static_pose_single_key_witness :
    build_track (far_vec3 1) (fun _ => v3zero) 0 1 30 15 =
      [(sample_time 0 30 15 0, v3zero)] :=
  (static_pose_single_key 0 1 30 15 1 1 1 v3zero v3one quat_id (fun _ _ => 0)
    (by norm_num) (by norm_num) (by norm_num) (by norm_num) (by norm_num)
    (by norm_num) (fun _ => rfl)).1

/-! ## C1: SKEL chunk layout -/

/-- Each bone record is exactly 130 bytes: 64 + 64 + 1 + 1. -/
theorem bone_record_size (i : ℕ) (bn : Bone) : payload_size (bone_record i bn) = 130 := by
  simp [bone_record, pack_rows, payload_size, Packed.size]

/-- The bone map built by the loop pairs each bone name with its position,
offset by the starting counter value. -/
theorem write_skel_bones_map : ∀ (bones : List Bone) (k : ℕ),
    (write_skel_bones bones k).1 =
      (List.enumFrom k bones).map (fun ib => (ib.2.name, ib.1)) := by
  intro bones
  induction bones with
  | nil => intro k; rfl
  | cons bn rest ih =>
    intro k
    simp [write_skel_bones, List.enumFrom, ih]

/-- The payload built by the loop is the concatenation of the bone records,
indexed in encounter order from the starting counter value. -/
theorem write_skel_bones_payload : ∀ (bones : List Bone) (k : ℕ),
    (write_skel_bones bones k).2 =
      flat ((List.enumFrom k bones).map (fun ib => bone_record ib.1 ib.2)) := by
  intro bones
  induction bones with
  | nil => intro k; rfl
  | cons bn rest ih =>
    intro k
    simp [write_skel_bones, List.enumFrom, ih, flat]

/-- The payload of n bone records occupies exactly 130 n bytes. -/
theorem write_skel_bones_size : ∀ (bones : List Bone) (k : ℕ),
    payload_size (write_skel_bones bones k).2 = 130 * bones.length := by
  intro bones
  induction bones with
  | nil => intro k; rfl
  | cons bn rest ih =>
    intro k
    show payload_size (bone_record k bn ++ (write_skel_bones rest (k + 1)).2) = _
    rw [payload_size_append, bone_record_size, ih]
    simp [List.length_cons]
    ring

/-- Looking up the j-th bone name in the map yields index k + j when all
names are distinct. -/
theorem write_skel_bones_lookup : ∀ (bones : List Bone) (k : ℕ),
    (bones.map Bone.name).Nodup →
    ∀ (j : ℕ) (hj : j < bones.length),
      List.lookup (bones.get ⟨j, hj⟩).name (write_skel_bones bones k).1 =
        some (k + j) := by
  intro bones
  induction bones with
  | nil =>
    intro k _ j hj
    exact absurd hj (by simp)
  | cons bn rest ih =>
    intro k hnd j hj
    rw [List.map_cons, List.nodup_cons] at hnd
    cases j with
    | zero =>
      simp [write_skel_bones, List.lookup]
    | succ j' =>
      have hj' : j' < rest.length := by simpa using hj
      have hmem : (rest.get ⟨j', hj'⟩).name ∈ rest.map Bone.name :=
        List.mem_map_of_mem Bone.name (rest.get_mem j' hj')
      have hne : ((rest.get ⟨j', hj'⟩).name == bn.name) = false := by
        rw [beq_eq_false_iff_ne]
        intro h
        exact hnd.1 (h ▸ hmem)
      rw [write_skel_bones]
      show List.lookup ((bn :: rest).get ⟨j' + 1, hj⟩).name
        ((bn.name, k) :: (write_skel_bones rest (k + 1)).1) = some (k + (j' + 1))
      rw [List.get_cons_succ, List.lookup, hne]
      show List.lookup (rest.get ⟨j', hj'⟩).name (write_skel_bones rest (k + 1)).1 = _
      rw [ih (k + 1) hnd.2 j' hj']
      congr 1
      omega

/-- C1: for every armature of n bones, n at most 256, with skinning export
enabled, the emitted SKEL chunk declares 130 n bytes, its payload occupies
exactly 130 n bytes laid out bone after bone as inverse bind matrix (16 f32),
local rest transform (16 f32), bone index (u8) and child count (u8) with
indices 0..n-1 in encounter order, and the bone-name-to-index map sends the
j-th bone name to j. -/
theorem skel_chunk_layout (bones : List Bone) (h256 : bones.length ≤ 256)
    (hnd : (bones.map Bone.name).Nodup) :
    (skel_section true [bones]).2 =
      some (130 * bones.length, (write_skel_bones bones 0).2) ∧
    payload_size (write_skel_bones bones 0).2 = 130 * bones.length ∧
    (write_skel_bones bones 0).2 =
      flat ((List.enumFrom 0 bones).map (fun ib => bone_record ib.1 ib.2)) ∧
    (∀ (j : ℕ) (hj : j < bones.length),
      List.lookup (bones.get ⟨j, hj⟩).name (skel_section true [bones]).1 = some j) := by
  have hng : ¬ bones.length > 256 := by omega
  refine ⟨?_, write_skel_bones_size bones 0, write_skel_bones_payload bones 0, ?_⟩
  · simp only [skel_section]
    rw [if_neg hng]
  · intro j hj
    have h := write_skel_bones_lookup bones 0 hnd j hj
    rw [Nat.zero_add] at h
    simp only [skel_section]
    rw [if_neg hng]
    exact h

/-- Witness for skel_chunk_layout on a two-bone skeleton. -/
theorem skel_chunk_layout_witness :
    [bone_a, bone_b].length ≤ 256 ∧
    ([bone_a, bone_b].map Bone.name).Nodup ∧
    (skel_section true [[bone_a, bone_b]]).2 =
      some (130 * [bone_a, bone_b].length, (write_skel_bones [bone_a, bone_b] 0).2) ∧
    payload_size (write_skel_bones [bone_a, bone_b] 0).2 = 130 * [bone_a, bone_b].length :=
  ⟨by decide, by decide,
   (skel_chunk_layout [bone_a, bone_b] (by decide) (by decide)).1,
   (skel_chunk_layout [bone_a, bone_b] (by decide) (by decide)).2.1⟩

/-! ## C10: clip frame range accumulators -/

/-- The running-minimum update written with a comparison equals min. -/
theorem if_lt_eq_min (a x : ℚ) : (if x < a then x else a) = min a x := by
  rcases le_total a x with h | h
  · rw [if_neg (not_lt.mpr h), min_eq_left h]
  · rcases eq_or_lt_of_le h with h2 | h2
    · simp [h2]
    · rw [if_pos h2, min_eq_right h]

/-- The running-maximum update written with a comparison equals max. -/
theorem if_gt_eq_max (a x : ℚ) : (if x > a then x else a) = max a x := by
  rcases le_total x a with h | h
  · rw [if_neg (not_lt.mpr h), max_eq_left h]
  · rcases eq_or_lt_of_le h with h2 | h2
    · simp [h2]
    · rw [if_pos h2, max_eq_right h]

/-- The paired min/max fold splits into a min fold and a max fold. -/
theorem foldl_min_max_pair : ∀ (strips : List (ℚ × ℚ)) (init : ℚ × ℚ),
    strips.foldl (fun be strip => (min be.1 strip.1, max be.2 strip.2)) init =
      ((strips.map Prod.fst).foldl min init.1, (strips.map Prod.snd).foldl max init.2) := by
  intro strips
  induction strips with
  | nil => intro init; rfl
  | cons s rest ih =>
    intro init
    rw [List.foldl_cons, List.map_cons, List.map_cons, List.foldl_cons, List.foldl_cons, ih]

/-- A min fold never exceeds its initial accumulator. -/
theorem foldl_min_le_init : ∀ (l : List ℚ) (init : ℚ), l.foldl min init ≤ init := by
  intro l
  induction l with
  | nil => intro init; exact le_refl init
  | cons x xs ih =>
    intro init
    rw [List.foldl_cons]
    exact le_trans (ih (min init x)) (min_le_left init x)

/-- A max fold never falls below its initial accumulator. -/
theorem foldl_max_ge_init : ∀ (l : List ℚ) (init : ℚ), init ≤ l.foldl max init := by
  intro l
  induction l with
  | nil => intro init; exact le_refl init
  | cons x xs ih =>
    intro init
    rw [List.foldl_cons]
    exact le_trans (le_max_left init x) (ih (max init x))

/-- A min fold stays at its initial accumulator when every element is at
least that accumulator. -/
theorem foldl_min_eq_init : ∀ (l : List ℚ) (init : ℚ), (∀ x ∈ l, init ≤ x) →
    l.foldl min init = init := by
  intro l
  induction l with
  | nil => intro init _; rfl
  | cons x xs ih =>
    intro init h
    rw [List.foldl_cons, min_eq_left (h x (by simp))]
    exact ih init (fun y hy => h y (by simp [hy]))

/-- C10: the animation writer folds begin and end from accumulators that
start at 0, so begin = min(0, earliest strip start) and end = max(0, latest
strip end); begin is never positive and end is never negative, and when every
strip starts after frame 0 the clip begins at frame 0 and the first sampled
frame is 0 rather than the first strip's start. -/
theorem clip_range_spec (strips : List (ℚ × ℚ)) (fps rr : ℚ) :
    clip_range strips =
      ((strips.map Prod.fst).foldl min 0, (strips.map Prod.snd).foldl max 0) ∧
    (clip_range strips).1 ≤ 0 ∧
    0 ≤ (clip_range strips).2 ∧
    ((∀ st ∈ strips, 0 < st.1) →
      (clip_range strips).1 = 0 ∧ sample_frame (clip_range strips).1 fps rr 0 = 0) := by
  have hfold : clip_range strips =
      ((strips.map Prod.fst).foldl min 0, (strips.map Prod.snd).foldl max 0) := by
    rw [clip_range]
    simp only [if_lt_eq_min, if_gt_eq_max]
    exact foldl_min_max_pair strips (0, 0)
  have hb0 : (∀ st ∈ strips, 0 < st.1) → (clip_range strips).1 = 0 := by
    intro hpos
    rw [hfold]
    exact foldl_min_eq_init (strips.map Prod.fst) 0
      (fun x hx => by
        obtain ⟨st, hst, hmap⟩ := List.mem_map.mp hx
        exact le_of_lt (hmap ▸ hpos st hst))
  refine ⟨hfold, by rw [hfold]; exact foldl_min_le_init _ 0,
    by rw [hfold]; exact foldl_max_ge_init _ 0, fun hpos => ⟨hb0 hpos, ?_⟩⟩
  rw [hb0 hpos, sample_frame]
  norm_num [pyint]

/-- Witness for clip_range_spec on a single strip spanning frames 2 to 5. -/
theorem clip_range_spec_witness :
    (clip_range [((2 : ℚ), (5 : ℚ))]).1 = 0 ∧
    sample_frame (clip_range [((2 : ℚ), (5 : ℚ))]).1 30 15 0 = 0 :=
  (clip_range_spec [((2 : ℚ), (5 : ℚ))] 30 15).2.2.2 (by norm_num)
